import Mathlib

/-!
Shallow embedding of the document-scanner imaging pipeline
(`app/infra/imaging/{scanner_pipeline,quad_detect,warp,filters,exif_sanitize}.py`
and the result dataclasses of `app/domain/models.py`).

Conventions of the embedding:
* Python ints are `Int`/`Nat`; Python floats are modelled exactly with `ℚ`
  (or, for truncated Euclidean norms of integer points, with `Nat.sqrt`).
* Opaque image operations (decode, resize, blur, Hough transform, file IO)
  are inputs of the model: either a `Bool` oracle standing for "the operation
  succeeded" (the `except` branch of the corresponding `try` fires when it is
  `false`) or the operation's numeric output (pixel lists, line angles).
* Fallible Python code never raises past a `try/except` boundary; every model
  function is total and returns the structured value the Python code returns.
-/

namespace PdfScanner

/-! ## Domain models (`app/domain/models.py`) -/

/-- `FilterType` enumeration. -/
inductive FilterType where
  | ORIGINAL
  | GRAYSCALE
  | BLACK_WHITE
  | ENHANCED
deriving DecidableEq, Repr

/-- `QuadResult` dataclass: result of document edge detection.
Field defaults mirror the Python dataclass defaults. -/
structure QuadResult where
  detected : Bool := false
  points : Option (List (Int × Int)) := none
  confidence : ℚ := 0
  frame_size : Nat × Nat := (0, 0)
deriving DecidableEq, Repr

/-- `ProcessingResult` dataclass: result of an image processing run. -/
structure ProcessingResult where
  success : Bool := false
  output_path : String := ""
  error_message : String := ""
  processing_time_ms : Int := 0
deriving DecidableEq, Repr

/-! ## `warp.py` — PerspectiveWarper -/

/-- Squared Euclidean distance between two integer points; `_distance` in the
source returns the float `sqrt` of this value. -/
def dist_sq (p1 p2 : Int × Int) : Int :=
  (p2.1 - p1.1) ^ 2 + (p2.2 - p1.2) ^ 2

/-- `PerspectiveWarper._calculate_output_size`.  The source computes
`int(max(dist(tl,tr), dist(bl,br)))` with float `dist`; for integer corner
coordinates, Python's `int()` truncation of the real square root of the
integer `dist_sq` is exactly `Nat.sqrt`, and `max` commutes with `sqrt`. -/
def calculate_output_size (tl tr br bl : Int × Int) : Nat × Nat :=
  let width := Nat.sqrt (max (dist_sq tl tr) (dist_sq bl br)).toNat
  let height := Nat.sqrt (max (dist_sq tl bl) (dist_sq tr br)).toNat
  (max width 100, max height 100)

/-- Rounded (nearest-integer) square root of a natural number:
`roundSqrt n = round (Real.sqrt n)`, since `round (sqrt n) = s + 1` exactly
when `n > s*s + s` for `s = Nat.sqrt n` (ties cannot occur on integers). -/
def roundSqrt (n : Nat) : Nat :=
  let s := Nat.sqrt n
  if s * s + s < n then s + 1 else s

/-- Modelled from the spec: output sizing as the spec sentence words it,
"output width = round(max(|TL–TR|, |BL–BR|))", i.e. with rounding to the
nearest integer instead of the source's truncating `int()`.  Used only to
compare against `calculate_output_size`. -/
def calculate_output_size_rounded (tl tr br bl : Int × Int) : Nat × Nat :=
  let width := roundSqrt (max (dist_sq tl tr) (dist_sq bl br)).toNat
  let height := roundSqrt (max (dist_sq tl bl) (dist_sq tr br)).toNat
  (max width 100, max height 100)

/-- `PerspectiveWarper.warp`: on success both backends return `output_path`;
the surrounding `try/except` returns the original `image_path` on any failure.
`warp_ok` is the success oracle for the backend call. -/
def warp (warp_ok : Bool) (image_path : String) (output_path : String) : String :=
  if warp_ok then output_path else image_path

/-- `PerspectiveWarper.rotate_image`: degrees are normalized `mod 360` (Python
`%` on ints agrees with `Int.emod` for a positive modulus); a zero rotation
returns the input path before any fallible operation runs; otherwise the
`try/except` yields `output_path` on success and `image_path` on failure. -/
def rotate_image (rotate_ok : Bool) (image_path : String) (degrees : Int)
    (output_path : String) : String :=
  if degrees % 360 = 0 then image_path
  else if rotate_ok then output_path else image_path

/-- Sorted insertion, for `sortList`. -/
def insertSorted (a : ℚ) : List ℚ → List ℚ
  | [] => [a]
  | b :: t => if a ≤ b then a :: b :: t else b :: insertSorted a t

/-- Insertion sort on rationals (any sorted rearrangement gives the same
order statistics, so this models `np.sort` faithfully for `np.median`). -/
def sortList : List ℚ → List ℚ
  | [] => []
  | a :: t => insertSorted a (sortList t)

/-- `np.median`: sort, take the middle element (odd length) or the mean of the
two middle elements (even length). -/
def npMedian (l : List ℚ) : ℚ :=
  let s := sortList l
  let n := s.length
  if n % 2 = 1 then s.getD (n / 2) 0
  else (s.getD (n / 2 - 1) 0 + s.getD (n / 2) 0) / 2

/-- `PerspectiveWarper._deskew_opencv`.  `img_ok` is the oracle for
`cv2.imread` returning a decoded image; `lines` is the opaque Hough-transform
output, as the list of line angles in degrees (`theta * 180 / pi - 90` for
each returned `(rho, theta)`), `none` when `cv2.HoughLines` returns `None`.
The source keeps the first 20 lines, filters to angles strictly inside
(-45, 45), and skips the correction when `abs(median) < 0.5 or abs(median) > 15`;
`write_ok` is the success oracle for the final
`getRotationMatrix2D`/`warpAffine`/`imwrite` block — when it raises, the
exception propagates to `deskew`'s `try/except`, which returns the input
path. -/
def deskew_opencv (img_ok write_ok : Bool) (lines : Option (List ℚ))
    (image_path output_path : String) : String :=
  if img_ok then
    match lines with
    | none => image_path
    | some ls =>
      if ls.length = 0 then image_path
      else
        let angles := (ls.take 20).filter (fun a => decide (-45 < a) && decide (a < 45))
        if angles.isEmpty then image_path
        else
          let median_angle := npMedian angles
          if |median_angle| < 1/2 ∨ |median_angle| > 15 then image_path
          else if write_ok then output_path else image_path
  else image_path

/-- `PerspectiveWarper.deskew`: dispatches to the OpenCV backend when
available, otherwise (Pillow fallback) returns the input unchanged; the
surrounding `try/except` returns the input on any failure raised by the
backend (the `write_ok = false` case of `deskew_opencv`). -/
def deskew (use_opencv img_ok write_ok : Bool) (lines : Option (List ℚ))
    (image_path output_path : String) : String :=
  if use_opencv then deskew_opencv img_ok write_ok lines image_path output_path
  else image_path

/-! ## `filters.py` — ImageFilters -/

/-- `ImageFilters.apply_filter`: `ORIGINAL` returns the input path directly;
every other filter returns `output_path` on backend success, and the
`try/except` returns the input path on any failure. -/
def apply_filter (filter_ok : Bool) (image_path : String) (filter_type : FilterType)
    (output_path : String) : String :=
  if filter_type = FilterType.ORIGINAL then image_path
  else if filter_ok then output_path else image_path

/-! ## `exif_sanitize.py` -/

/-- `sanitize_image`: returns `output_path` when re-encoding succeeds, and the
original `image_path` when any step fails (the `except` branch). -/
def sanitize_image (sanitize_ok : Bool) (image_path output_path : String) : String :=
  if sanitize_ok then output_path else image_path

/-! ## `quad_detect.py` — QuadDetector -/

/-- A `QuadResult(detected=False)` with all other fields left at their
dataclass defaults, as returned by every error path of the detector. -/
def quadFail : QuadResult :=
  { detected := false, points := none, confidence := 0, frame_size := (0, 0) }

/-- `QuadDetector._detect_opencv_bytes`: the buffer length must be exactly
`width*height*4` (RGBA) or `width*height*3` (RGB), otherwise
`QuadResult(detected=False)` is returned; the reshape/color-convert block is
wrapped in its own `try/except` (`inner_ok` oracle) that also returns
`QuadResult(detected=False)`.  On success the decoded frame is handed to
`_process_opencv`, whose outcome is the opaque `processed` input. -/
def detect_opencv_bytes (nbytes width height : Nat) (inner_ok : Bool)
    (processed : QuadResult) : QuadResult :=
  if inner_ok then
    if nbytes = width * height * 4 then processed
    else if nbytes = width * height * 3 then processed
    else quadFail
  else quadFail

/-- `QuadDetector._detect_pillow_bytes`: `Image.open` on the byte buffer
(`open_ok` oracle) followed by `_process_pillow` (opaque `processed`); its
`try/except` returns `QuadResult(detected=False)` on failure. -/
def detect_pillow_bytes (open_ok : Bool) (processed : QuadResult) : QuadResult :=
  if open_ok then processed else quadFail

/-- `QuadDetector.detect_from_bytes`: dispatches on the construction-time
backend flag; the entry-point `try/except` (`entry_ok` oracle) converts any
escaped exception into `QuadResult(detected=False)`. -/
def detect_from_bytes (use_opencv entry_ok inner_ok : Bool)
    (nbytes width height : Nat) (cv_processed pil_processed : QuadResult) : QuadResult :=
  if entry_ok then
    if use_opencv then detect_opencv_bytes nbytes width height inner_ok cv_processed
    else detect_pillow_bytes inner_ok pil_processed
  else quadFail

/-- `QuadDetector._detect_opencv` (file based): `cv2.imread` returning `None`
(`imread_ok` oracle) yields `QuadResult(detected=False)`. -/
def detect_opencv_file (imread_ok : Bool) (processed : QuadResult) : QuadResult :=
  if imread_ok then processed else quadFail

/-- `QuadDetector._detect_pillow` (file based), with its internal `try/except`. -/
def detect_pillow_file (open_ok : Bool) (processed : QuadResult) : QuadResult :=
  if open_ok then processed else quadFail

/-- `QuadDetector.detect`: entry point over a file path. -/
def detect (use_opencv entry_ok backend_ok : Bool)
    (cv_processed pil_processed : QuadResult) : QuadResult :=
  if entry_ok then
    if use_opencv then detect_opencv_file backend_ok cv_processed
    else detect_pillow_file backend_ok pil_processed
  else quadFail

/-- State threaded through the `for y: for x:` loop of
`QuadDetector._find_content_bbox`. -/
structure BboxState where
  min_x : Nat
  min_y : Nat
  max_x : Nat
  max_y : Nat
  count : Nat
deriving DecidableEq, Repr

/-- One iteration of the bbox loop at flat index `i` (the source iterates
`y` then `x`, visiting exactly the flat indices `y*width + x` in increasing
order, with `x = i % width`, `y = i / width`). -/
def bboxStep (width : Nat) (pixels : List Nat) (s : BboxState) (i : Nat) : BboxState :=
  if 128 < pixels.getD i 0 then
    { min_x := min s.min_x (i % width), min_y := min s.min_y (i / width),
      max_x := max s.max_x (i % width), max_y := max s.max_y (i / width),
      count := s.count + 1 }
  else s

/-- `QuadDetector._find_content_bbox` on a `width × height` image given as a
row-major pixel list.  `min_x/min_y` start at `width/height`, `max_x/max_y`
at `0`.  Python's `max(0, v - margin)` is `Nat` truncated subtraction; the
float test `box_width < width * 0.2` is modelled exactly as
`box_width * 5 < width`. -/
def find_content_bbox (width height : Nat) (pixels : List Nat) :
    Option (Nat × Nat × Nat × Nat) :=
  let s := (List.range (height * width)).foldl (bboxStep width pixels)
    ⟨width, height, 0, 0, 0⟩
  if s.count < 100 then none
  else
    let min_x := s.min_x - 10
    let min_y := s.min_y - 10
    let max_x := min (width - 1) (s.max_x + 10)
    let max_y := min (height - 1) (s.max_y + 10)
    let box_width := max_x - min_x
    let box_height := max_y - min_y
    if box_width * 5 < width ∨ box_height * 5 < height then none
    else some (min_x, min_y, max_x, max_y)

/-- The binary-threshold step of `QuadDetector._process_pillow`:
`edges.point(lambda x: 255 if x > threshold else 0)` with `threshold = 30`. -/
def threshold_point (pixels : List Nat) : List Nat :=
  pixels.map (fun x => if 30 < x then 255 else 0)

/-- Size of the processing image after the conditional downscale of
`_process_pillow` (`DOWNSCALE_WIDTH = 960`): with exact rational arithmetic
`int(original_width * (960 / original_width)) = 960` and
`int(original_height * (960 / original_width))` is floor division. -/
def downscaled_size (original_width original_height : Nat) : Nat × Nat :=
  if 960 < original_width then (960, original_height * 960 / original_width)
  else (original_width, original_height)

/-- Rescaling a coordinate back to original-frame space:
`int(v / scale)` for `scale = 960 / original_width` (or `1.0`), i.e. floor of
`v * original_width / 960`. -/
def unscale (original_width : Nat) (v : Nat) : Nat :=
  if 960 < original_width then v * original_width / 960 else v

/-- `QuadDetector._process_pillow`.  The resize / grayscale / `FIND_EDGES`
image operations are opaque; their output is the model input `edge_pixels`,
the edge image of the downscaled frame, row-major.  The source then
thresholds, computes the content bbox, and either reports the rescaled bbox
corners with fixed confidence 0.5, or `detected=False`. -/
def process_pillow (original_width original_height : Nat)
    (edge_pixels : List Nat) : QuadResult :=
  let w := (downscaled_size original_width original_height).1
  let h := (downscaled_size original_width original_height).2
  let binary := threshold_point edge_pixels
  match find_content_bbox w h binary with
  | some (x1, y1, x2, y2) =>
      { detected := true,
        points := some
          [((unscale original_width x1 : Int), (unscale original_width y1 : Int)),
           ((unscale original_width x2 : Int), (unscale original_width y1 : Int)),
           ((unscale original_width x2 : Int), (unscale original_width y2 : Int)),
           ((unscale original_width x1 : Int), (unscale original_width y2 : Int))],
        confidence := 1/2,
        frame_size := (original_width, original_height) }
  | none =>
      { detected := false, points := none, confidence := 0,
        frame_size := (original_width, original_height) }

/-- First index of a minimal value (ties resolved to the earliest index, as
`np.argmin`); `i` is the index of the head of the remaining list, `bi/bv` the
best index and value so far. -/
def argminGo : Nat → Nat → Int → List Int → Nat
  | _, bi, _, [] => bi
  | i, bi, bv, v :: vs =>
    if v < bv then argminGo (i + 1) i v vs else argminGo (i + 1) bi bv vs

/-- `np.argmin` over a list of values (0 on the empty list, unused). -/
def argminIdx (vals : List Int) : Nat :=
  match vals with
  | [] => 0
  | v :: vs => argminGo 1 0 v vs

/-- First index of a maximal value (ties resolved to the earliest index, as
`np.argmax`). -/
def argmaxGo : Nat → Nat → Int → List Int → Nat
  | _, bi, _, [] => bi
  | i, bi, bv, v :: vs =>
    if bv < v then argmaxGo (i + 1) i v vs else argmaxGo (i + 1) bi bv vs

/-- `np.argmax` over a list of values. -/
def argmaxIdx (vals : List Int) : Nat :=
  match vals with
  | [] => 0
  | v :: vs => argmaxGo 1 0 v vs

/-- Corner sum `x + y` used by `_order_points` (`pts.sum(axis=1)`). -/
def psum (p : Int × Int) : Int := p.1 + p.2

/-- Corner difference `y - x` used by `_order_points` (`np.diff(pts, axis=1)`). -/
def pdiff (p : Int × Int) : Int := p.2 - p.1

/-- `QuadDetector._order_points`: `[TL, TR, BR, BL]` with
`TL = points[argmin (x+y)]`, `BR = points[argmax (x+y)]`,
`TR = points[argmin (y-x)]`, `BL = points[argmax (y-x)]`.  Integer corner
coordinates round-trip exactly through the `float32` conversion of the
source for the magnitudes that occur here. -/
def order_points (points : List (Int × Int)) : List (Int × Int) :=
  let s := points.map psum
  let d := points.map pdiff
  [points.getD (argminIdx s) (0, 0),
   points.getD (argminIdx d) (0, 0),
   points.getD (argmaxIdx s) (0, 0),
   points.getD (argmaxIdx d) (0, 0)]

/-- `QuadDetector.estimate_brightness`: mean of the sampled (center-crop)
grayscale pixels, `128` on an empty sample, and `128` on any failure of the
open/convert/crop block (`ok` oracle for the `try` body). -/
def estimate_brightness (ok : Bool) (sample_pixels : List Nat) : ℚ :=
  if ok then
    if sample_pixels.isEmpty then 128
    else (sample_pixels.sum : ℚ) / sample_pixels.length
  else 128

/-- `QuadDetector.is_low_light` with its explicit threshold parameter
(default 50 at the call sites modelled here). -/
def is_low_light (ok : Bool) (sample_pixels : List Nat) (threshold : ℚ) : Bool :=
  decide (estimate_brightness ok sample_pixels < threshold)

/-! ## `scanner_pipeline.py` — ScannerPipeline -/

/-- `ScannerPipeline.is_low_light`: delegates to the detector with the
default threshold 50. -/
def pipeline_is_low_light (ok : Bool) (sample_pixels : List Nat) : Bool :=
  is_low_light ok sample_pixels 50

/-- `ScannerPipeline.PREVIEW_FRAME_INTERVAL = 0.2` seconds. -/
def PREVIEW_FRAME_INTERVAL : ℚ := 1/5

/-- `ScannerPipeline.detect_document_preview` reduced to its throttling
state machine: given `_last_preview_time` and the current `time.time()`,
returns (whether detection was run, the new `_last_preview_time`). -/
def detect_document_preview (last_preview_time now : ℚ) : Bool × ℚ :=
  if now - last_preview_time < PREVIEW_FRAME_INTERVAL then (false, last_preview_time)
  else (true, now)

/-- Times of the calls that actually run detection, over a sequence of call
times starting from throttle state `last`. -/
def accepted_times (last : ℚ) : List ℚ → List ℚ
  | [] => []
  | t :: ts =>
    let r := detect_document_preview last t
    if r.1 then t :: accepted_times r.2 ts else accepted_times r.2 ts

/-- `os.path.join` for the simple `directory, filename` uses in the source. -/
def pathJoin (dir name : String) : String := dir ++ "/" ++ name

/-- Does `pat` occur as a contiguous substring of `l`?  (Python's
`pat in s` on strings.) -/
def containsSub (pat : List Char) : List Char → Bool
  | [] => pat.isEmpty
  | c :: rest => pat.isPrefixOf (c :: rest) || containsSub pat rest

/-- Python `pat in s` for strings. -/
def strContains (s pat : String) : Bool := containsSub pat.toList s.toList

/-- The intermediate-stage name markers of `cleanup_temp_files`. -/
def TEMP_MARKERS : List String :=
  ["warped_", "rotated_", "deskewed_", "filtered_", "sanitized_"]

/-- The filename test of `cleanup_temp_files`:
`any(prefix in filename for prefix in [...])` — substring containment. -/
def is_temp_name (filename : String) : Bool :=
  TEMP_MARKERS.any (fun p => strContains filename p)

/-- `ScannerPipeline.cleanup_temp_files`, modelled as the set of cache-file
paths whose deletion is attempted, given the `os.listdir` result: a file is
removed exactly when its full path is not in `keep_paths` and its name
contains one of the stage markers. -/
def cleanup_temp_files (cache_path : String) (listing : List String)
    (keep_paths : List String) : List String :=
  (listing.filter (fun filename =>
    !(keep_paths.contains (pathJoin cache_path filename)) && is_temp_name filename)).map
    (pathJoin cache_path)

/-- The per-stage success oracles of one `process_capture` run, together with
the construction-time backend flag and the opaque Hough output consumed by
the deskew stage. -/
structure StageOracles where
  warp_ok : Bool
  rotate_ok : Bool
  deskew_img_ok : Bool
  deskew_lines : Option (List ℚ)
  deskew_write_ok : Bool
  filter_ok : Bool
  sanitize_ok : Bool
  use_opencv : Bool
deriving DecidableEq

/-- `ScannerPipeline.process_capture`.  `timestamp` stands for the
`int(time.time() * 1000)` values used in the intermediate file names (the
name content is irrelevant to the control flow).  Python's
`if quad_points:` is falsy both for `None` and for an empty list.  The body
can only raise through a stage call, and every stage catches all of its own
exceptions, so the outer `except` branch is unreachable and the result always
carries `success = True`; `processing_time_ms` (wall-clock) is not modelled. -/
def process_capture (o : StageOracles) (cache_path image_path : String)
    (quad_points : Option (List (Int × Int))) (filter_type : FilterType)
    (rotation : Int) (timestamp : Nat) : ProcessingResult :=
  let has_quad := match quad_points with
    | some qp => !qp.isEmpty
    | none => false
  let current0 := image_path
  let current1 :=
    if has_quad then
      warp o.warp_ok current0 (pathJoin cache_path ("warped_" ++ toString timestamp ++ ".jpg"))
    else current0
  let current2 :=
    if rotation ≠ 0 then
      rotate_image o.rotate_ok current1 rotation
        (pathJoin cache_path ("rotated_" ++ toString timestamp ++ ".jpg"))
    else current1
  let current3 :=
    if has_quad then
      deskew o.use_opencv o.deskew_img_ok o.deskew_write_ok o.deskew_lines current2
        (pathJoin cache_path ("deskewed_" ++ toString timestamp ++ ".jpg"))
    else current2
  let current4 :=
    if filter_type ≠ FilterType.ORIGINAL then
      apply_filter o.filter_ok current3 filter_type
        (pathJoin cache_path ("filtered_" ++ toString timestamp ++ ".jpg"))
    else current3
  let current5 := sanitize_image o.sanitize_ok current4
    (pathJoin cache_path ("page_" ++ toString timestamp ++ ".jpg"))
  { success := true, output_path := current5, error_message := "",
    processing_time_ms := 0 }

/-- The arguments of an in-flight asynchronous processing request. -/
structure WorkItem where
  image_path : String
  quad_points : Option (List (Int × Int))
  filter_type : FilterType
  rotation : Int
deriving DecidableEq

/-- The mutable pipeline state touched by `process_capture_async`:
the `_is_processing` flag and the in-flight work (the wrapped
`_processing_thread`). -/
structure PipelineState where
  is_processing : Bool
  worker : Option WorkItem
deriving DecidableEq

/-- The observable effect of one `process_capture_async` call: the pipeline
state afterwards, what (if anything) was delivered to the completion
callback immediately, and whether a new worker thread was started. -/
structure AsyncOutcome where
  state : PipelineState
  delivered : Option ProcessingResult
  spawned : Bool
deriving DecidableEq

/-- `ScannerPipeline.process_capture_async`: when `_is_processing` is set,
the call returns at once, scheduling
`ProcessingResult(error_message="Already processing")` (all other fields at
their dataclass defaults, so `success=False`) for the completion callback if
one was given, starting no thread and leaving the state untouched; otherwise
it sets the flag and starts the worker. -/
def process_capture_async (st : PipelineState) (job : WorkItem)
    (has_callback : Bool) : AsyncOutcome :=
  if st.is_processing then
    { state := st,
      delivered :=
        if has_callback then
          some { success := false, output_path := "",
                 error_message := "Already processing", processing_time_ms := 0 }
        else none,
      spawned := false }
  else
    { state := { is_processing := true, worker := some job },
      delivered := none, spawned := true }

/-! ## Declarative quantities for the fallback-detection claim

These restate, in direct filter/fold form, the quantities the spec sentence
speaks about: the set of above-threshold edge pixels of the binary image and
the extremes of their coordinates.  They are compared against the loop-based
`find_content_bbox` above. -/

/-- Flat indices of the binary image whose pixel value exceeds 128. -/
def spec_edge_idx (width height : Nat) (binary : List Nat) : List Nat :=
  (List.range (height * width)).filter (fun i => decide (128 < binary.getD i 0))

/-- Minimum x-coordinate over the edge pixels, starting from `width`. -/
def spec_min_x (width height : Nat) (binary : List Nat) : Nat :=
  (spec_edge_idx width height binary).foldl (fun a i => min a (i % width)) width

/-- Minimum y-coordinate over the edge pixels, starting from `height`. -/
def spec_min_y (width height : Nat) (binary : List Nat) : Nat :=
  (spec_edge_idx width height binary).foldl (fun a i => min a (i / width)) height

/-- Maximum x-coordinate over the edge pixels, starting from `0`. -/
def spec_max_x (width height : Nat) (binary : List Nat) : Nat :=
  (spec_edge_idx width height binary).foldl (fun a i => max a (i % width)) 0

/-- Maximum y-coordinate over the edge pixels, starting from `0`. -/
def spec_max_y (width height : Nat) (binary : List Nat) : Nat :=
  (spec_edge_idx width height binary).foldl (fun a i => max a (i / width)) 0

/-- Left edge of the margin-expanded content box (10px margin, clamped at 0). -/
def spec_box_x1 (width height : Nat) (binary : List Nat) : Nat :=
  spec_min_x width height binary - 10

/-- Top edge of the margin-expanded content box. -/
def spec_box_y1 (width height : Nat) (binary : List Nat) : Nat :=
  spec_min_y width height binary - 10

/-- Right edge of the margin-expanded content box, clamped to the frame. -/
def spec_box_x2 (width height : Nat) (binary : List Nat) : Nat :=
  min (width - 1) (spec_max_x width height binary + 10)

/-- Bottom edge of the margin-expanded content box, clamped to the frame. -/
def spec_box_y2 (width height : Nat) (binary : List Nat) : Nat :=
  min (height - 1) (spec_max_y width height binary + 10)

end PdfScanner

namespace PdfScanner

/-! ## Theorems -/

/-- Claim C1 (counterexample to the claim as stated): a run whose final
sanitize/write step fails — every earlier stage succeeding — still returns
`success = true` with no error recorded; the failed sanitize stage passes its
input (the deskewed intermediate) through as the final output.  This refutes
"only a failure in the final write/sanitize step makes the whole call return
a result with success=false and an error recorded". -/
theorem c1_sanitize_failure_not_fatal :
    process_capture ⟨true, true, true, none, true, true, false, true⟩ "cache" "in.jpg"
      (some [(0, 0), (1, 0), (1, 1), (0, 1)]) FilterType.GRAYSCALE 90 7 =
    { success := true, output_path := "cache/filtered_7.jpg", error_message := "",
      processing_time_ms := 0 } := by
  decide

/-- Claim C1 (amended): every stage failure — including a failure of the final
sanitize step — is absorbed by passing the stage's input path through
unchanged; `process_capture` always returns a structured `ProcessingResult`
with `success = true` and an empty error message, and when every stage fails
the output path is the untouched input path. -/
theorem c1_stage_failures_pass_through (o : StageOracles) (cache image_path : String)
    (qp : Option (List (Int × Int))) (ft : FilterType) (rot : Int) (ts : Nat) :
    (process_capture o cache image_path qp ft rot ts).success = true ∧
    (process_capture o cache image_path qp ft rot ts).error_message = "" ∧
    (o.warp_ok = false → o.rotate_ok = false → o.deskew_img_ok = false →
      o.filter_ok = false → o.sanitize_ok = false →
      (process_capture o cache image_path qp ft rot ts).output_path = image_path) := by
  refine ⟨rfl, rfl, fun h1 h2 h3 h4 h5 => ?_⟩
  simp only [process_capture, warp, rotate_image, deskew, deskew_opencv,
    apply_filter, sanitize_image, h1, h2, h3, h4, h5, if_false, Bool.false_eq_true,
    ite_self]

/-- Witness for `c1_stage_failures_pass_through` at an all-failing oracle. -/
theorem c1_witness :
    (process_capture ⟨false, false, false, none, false, false, false, false⟩ "cache" "in.jpg"
      (some [(0, 0), (1, 0), (1, 1), (0, 1)]) FilterType.GRAYSCALE 90 3).output_path
      = "in.jpg" :=
  (c1_stage_failures_pass_through ⟨false, false, false, none, false, false, false, false⟩
    "cache" "in.jpg" (some [(0, 0), (1, 0), (1, 1), (0, 1)]) FilterType.GRAYSCALE
    90 3).2.2 rfl rfl rfl rfl rfl

/-- Claim C2 (counterexample to the claim as stated): `cleanup_temp_files`
deletes `doc_warped_1.jpg`, a file whose name does not start with any
intermediate-stage prefix — the source tests substring containment
(`prefix in filename`), not a prefix match — so "every file whose name does
not match such a prefix is left untouched" fails. -/
theorem c2_cleanup_deletes_nonprefixed :
    cleanup_temp_files "cache" ["doc_warped_1.jpg"] [] = ["cache/doc_warped_1.jpg"] ∧
    TEMP_MARKERS.all
      (fun p => !(p.toList.isPrefixOf "doc_warped_1.jpg".toList)) = true := by
  decide

/-- Claim C2 (amended): `cleanup_temp_files(keep_paths)` deletes a cache file
exactly when its name *contains* one of the intermediate-stage markers
(`warped_`, `rotated_`, `deskewed_`, `filtered_`, `sanitized_`) as a
substring and its full path is not in `keep_paths`; every path in
`keep_paths` survives, and files without a marker substring are untouched. -/
theorem c2_cleanup_characterization (cache : String) (listing keep : List String) :
    (∀ p ∈ keep, p ∉ cleanup_temp_files cache listing keep) ∧
    (∀ fp, fp ∈ cleanup_temp_files cache listing keep ↔
      ∃ fn, fn ∈ listing ∧ fp = pathJoin cache fn ∧ is_temp_name fn = true ∧
        pathJoin cache fn ∉ keep) := by
  have hcontains : ∀ (l : List String) (a : String), (l.contains a = false) ↔ a ∉ l := by
    intro l a
    simp [List.elem_iff]
  have hmem : ∀ fp, fp ∈ cleanup_temp_files cache listing keep ↔
      ∃ fn, fn ∈ listing ∧ fp = pathJoin cache fn ∧ is_temp_name fn = true ∧
        pathJoin cache fn ∉ keep := by
    intro fp
    simp only [cleanup_temp_files, List.mem_map, List.mem_filter,
      Bool.and_eq_true, Bool.not_eq_true', hcontains]
    constructor
    · rintro ⟨fn, ⟨hfn, hkeep, htmp⟩, rfl⟩
      exact ⟨fn, hfn, rfl, htmp, hkeep⟩
    · rintro ⟨fn, hfn, rfl, htmp, hkeep⟩
      exact ⟨fn, ⟨hfn, hkeep, htmp⟩, rfl⟩
  refine ⟨fun p hp hdel => ?_, hmem⟩
  obtain ⟨fn, _, hfp, _, hkeep⟩ := (hmem p).1 hdel
  exact hkeep (hfp ▸ hp)

/-- Witness for `c2_cleanup_characterization`: a kept path matching a marker
is not deleted. -/
theorem c2_witness :
    "cache/warped_1.jpg" ∉
      cleanup_temp_files "cache" ["warped_1.jpg", "other.txt"] ["cache/warped_1.jpg"] :=
  (c2_cleanup_characterization "cache" ["warped_1.jpg", "other.txt"]
    ["cache/warped_1.jpg"]).1 "cache/warped_1.jpg" (by simp)

/-- On a four-element list whose head is a (weak) minimum, `argminIdx`
returns index 0. -/
theorem argminIdx_quad_zero {a b c d : Int} (hb : ¬ b < a) (hc : ¬ c < a)
    (hd : ¬ d < a) : argminIdx [a, b, c, d] = 0 := by
  simp [argminIdx, argminGo, hb, hc, hd]

/-- On a four-element list whose second element is the unique strict minimum,
`argminIdx` returns index 1. -/
theorem argminIdx_quad_one {a b c d : Int} (hb : b < a) (hc : ¬ c < b)
    (hd : ¬ d < b) : argminIdx [a, b, c, d] = 1 := by
  simp [argminIdx, argminGo, hb, hc, hd]

/-- On a four-element list whose third element is the unique strict maximum,
`argmaxIdx` returns index 2. -/
theorem argmaxIdx_quad_two {a b c d : Int} (hac : a < c) (hbc : b < c)
    (hcd : ¬ c < d) : argmaxIdx [a, b, c, d] = 2 := by
  by_cases hab : a < b <;> simp [argmaxIdx, argmaxGo, hab, hac, hbc, hcd]

/-- On a four-element list whose last element is the unique strict maximum,
`argmaxIdx` returns index 3. -/
theorem argmaxIdx_quad_three {a b c d : Int} (had : a < d) (hbd : b < d)
    (hcd : c < d) : argmaxIdx [a, b, c, d] = 3 := by
  by_cases hab : a < b
  · by_cases hbc : b < c <;> simp [argmaxIdx, argmaxGo, hab, hbc, had, hbd, hcd]
  · by_cases hac : a < c <;> simp [argmaxIdx, argmaxGo, hab, hac, had, hbd, hcd]

/-- Claim C3 (counterexample to the claim as stated): a quad produced by the
ordering heuristic itself — hence "already in clockwise-from-top-left order
as produced by the ordering heuristic" — that changes again under a second
application.  The input `[(0,0),(0,4),(4,0),(1,1)]` orders to
`[(0,0),(4,0),(0,4),(0,4)]` (the x+y maximum is tied between `(4,0)` and
`(0,4)`), which re-orders to `[(0,0),(4,0),(4,0),(0,4)]`. -/
theorem c3_order_points_not_idempotent :
    order_points (order_points [(0, 0), (0, 4), (4, 0), (1, 1)]) ≠
      order_points [(0, 0), (0, 4), (4, 0), (1, 1)] := by
  decide

/-- Claim C3 (amended): corner ordering is idempotent on every quad whose
four extremes are uniquely attained — `p0` the unique minimum of `x+y`,
`p2` the unique maximum of `x+y`, `p1` the unique minimum of `y−x`,
`p3` the unique maximum of `y−x` (ties, which arise only for degenerate or
exactly 45°-rotated quads, can break idempotence as the counterexample
shows). -/
theorem c3_order_points_idempotent (p0 p1 p2 p3 : Int × Int)
    (h01 : psum p0 < psum p1) (h02 : psum p0 < psum p2) (h03 : psum p0 < psum p3)
    (h12 : psum p1 < psum p2) (h32 : psum p3 < psum p2)
    (d10 : pdiff p1 < pdiff p0) (d12 : pdiff p1 < pdiff p2) (d13 : pdiff p1 < pdiff p3)
    (d03 : pdiff p0 < pdiff p3) (d23 : pdiff p2 < pdiff p3) :
    order_points [p0, p1, p2, p3] = [p0, p1, p2, p3] := by
  have hmin : argminIdx [psum p0, psum p1, psum p2, psum p3] = 0 :=
    argminIdx_quad_zero (by omega) (by omega) (by omega)
  have hmax : argmaxIdx [psum p0, psum p1, psum p2, psum p3] = 2 :=
    argmaxIdx_quad_two (by omega) (by omega) (by omega)
  have dmin : argminIdx [pdiff p0, pdiff p1, pdiff p2, pdiff p3] = 1 :=
    argminIdx_quad_one (by omega) (by omega) (by omega)
  have dmax : argmaxIdx [pdiff p0, pdiff p1, pdiff p2, pdiff p3] = 3 :=
    argmaxIdx_quad_three (by omega) (by omega) (by omega)
  simp [order_points, hmin, hmax, dmin, dmax]

/-- Witness for `c3_order_points_idempotent` at a concrete ordered quad. -/
theorem c3_witness :
    order_points [(0, 0), (4, 1), (5, 6), (1, 5)] = [(0, 0), (4, 1), (5, 6), (1, 5)] :=
  c3_order_points_idempotent (0, 0) (4, 1) (5, 6) (1, 5)
    (by decide) (by decide) (by decide) (by decide) (by decide)
    (by decide) (by decide) (by decide) (by decide) (by decide)

/-- `Nat.sqrt` characterization used to evaluate concrete square roots
(`Nat.sqrt` itself is not kernel-reducible). -/
theorem sqrt_eq_of {s n : Nat} (h1 : s * s ≤ n) (h2 : n < (s + 1) * (s + 1)) :
    Nat.sqrt n = s := by
  have hle : s ≤ Nat.sqrt n := Nat.le_sqrt.mpr h1
  have hlt : Nat.sqrt n < s + 1 := Nat.sqrt_lt.mpr h2
  omega

/-- Claim C4 (counterexample to the claim as stated): the source truncates
(`int()`), it does not round.  For the quad
`[(0,0),(100,11),(100,311),(0,300)]` both horizontal edges have length
`sqrt 10121 ≈ 100.603`, so the source yields width 100 while the spec's
rounding formula yields 101 (heights agree at 300). -/
theorem c4_size_truncates_not_rounds :
    calculate_output_size (0, 0) (100, 11) (100, 311) (0, 300) = (100, 300) ∧
    calculate_output_size_rounded (0, 0) (100, 11) (100, 311) (0, 300) = (101, 300) := by
  have s1 : Nat.sqrt 10121 = 100 := sqrt_eq_of (by decide) (by decide)
  have s2 : Nat.sqrt 90000 = 300 := sqrt_eq_of (by norm_num) (by norm_num)
  have d1 : (max (dist_sq (0, 0) (100, 11)) (dist_sq (0, 300) (100, 311))).toNat = 10121 := by
    decide
  have d2 : (max (dist_sq (0, 0) (0, 300)) (dist_sq (100, 11) (100, 311))).toNat = 90000 := by
    decide
  constructor <;>
    (simp only [calculate_output_size, calculate_output_size_rounded, roundSqrt]
     rw [d1, d2, s1, s2]
     decide)

/-- Claim C4 (amended): the rectified output width is the *truncation*
(floor, not rounding) of the longer of the two horizontal edge lengths, and
the height the truncation of the longer of the two vertical edge lengths,
each floored to a minimum of 100 pixels: whenever a dimension exceeds 100 it
is the integer square root of the corresponding maximal squared edge length,
and when it equals 100 that squared length is below `101²`; the quad
`[(0,0),(200,0),(200,300),(0,300)]` still produces exactly 200×300. -/
theorem c4_output_size_floor (tl tr br bl : Int × Int) :
    100 ≤ (calculate_output_size tl tr br bl).1 ∧
    100 ≤ (calculate_output_size tl tr br bl).2 ∧
    (100 < (calculate_output_size tl tr br bl).1 →
      (calculate_output_size tl tr br bl).1 ^ 2 ≤ (max (dist_sq tl tr) (dist_sq bl br)).toNat ∧
      (max (dist_sq tl tr) (dist_sq bl br)).toNat < ((calculate_output_size tl tr br bl).1 + 1) ^ 2) ∧
    ((calculate_output_size tl tr br bl).1 = 100 →
      (max (dist_sq tl tr) (dist_sq bl br)).toNat < 101 ^ 2) ∧
    (100 < (calculate_output_size tl tr br bl).2 →
      (calculate_output_size tl tr br bl).2 ^ 2 ≤ (max (dist_sq tl bl) (dist_sq tr br)).toNat ∧
      (max (dist_sq tl bl) (dist_sq tr br)).toNat < ((calculate_output_size tl tr br bl).2 + 1) ^ 2) ∧
    ((calculate_output_size tl tr br bl).2 = 100 →
      (max (dist_sq tl bl) (dist_sq tr br)).toNat < 101 ^ 2) ∧
    calculate_output_size (0, 0) (200, 0) (200, 300) (0, 300) = (200, 300) := by
  have key : ∀ m : Nat,
      100 ≤ max (Nat.sqrt m) 100 ∧
      (100 < max (Nat.sqrt m) 100 →
        (max (Nat.sqrt m) 100) ^ 2 ≤ m ∧ m < (max (Nat.sqrt m) 100 + 1) ^ 2) ∧
      (max (Nat.sqrt m) 100 = 100 → m < 101 ^ 2) := by
    intro m
    have h1 := Nat.sqrt_le' m
    have h2 := Nat.lt_succ_sqrt' m
    rcases le_or_lt (Nat.sqrt m) 100 with h | h
    · have hm : max (Nat.sqrt m) 100 = 100 := max_eq_right h
      refine ⟨le_of_eq hm.symm, fun hc => absurd hm (by omega), fun _ => ?_⟩
      calc m < (Nat.sqrt m + 1) ^ 2 := h2
        _ ≤ 101 ^ 2 := Nat.pow_le_pow_left (by omega) 2
    · have hm : max (Nat.sqrt m) 100 = Nat.sqrt m := max_eq_left (le_of_lt h)
      exact ⟨by omega, fun _ => ⟨by rw [hm]; exact h1, by rw [hm]; exact h2⟩,
        fun hc => by omega⟩
  have hconc : calculate_output_size (0, 0) (200, 0) (200, 300) (0, 300) = (200, 300) := by
    have s1 : Nat.sqrt 40000 = 200 := sqrt_eq_of (by norm_num) (by norm_num)
    have s2 : Nat.sqrt 90000 = 300 := sqrt_eq_of (by norm_num) (by norm_num)
    have d1 : (max (dist_sq (0, 0) (200, 0)) (dist_sq (0, 300) (200, 300))).toNat = 40000 := by
      decide
    have d2 : (max (dist_sq (0, 0) (0, 300)) (dist_sq (200, 0) (200, 300))).toNat = 90000 := by
      decide
    simp only [calculate_output_size]
    rw [d1, d2, s1, s2]
    decide
  exact ⟨(key _).1, (key _).1, (key _).2.1, (key _).2.2, (key _).2.1, (key _).2.2, hconc⟩

/-- Claim C5 (counterexample to the claim as stated): with a single detected
line at exactly 15° the median is 15, outside the claim's open interval
`0.5 < |median| < 15`, yet the source *does* apply the correction (its skip
test is `abs(median) < 0.5 or abs(median) > 15`), returning the corrected
output path instead of the unchanged input. -/
theorem c5_deskew_at_boundary :
    deskew true true true (some [15]) "a.jpg" "b.jpg" = "b.jpg" ∧
    ("b.jpg" : String) ≠ "a.jpg" ∧
    ¬ ((1/2 : ℚ) < |npMedian [15]| ∧ |npMedian [15]| < 15) := by
  have hmed : npMedian [15] = 15 := by
    norm_num [npMedian, sortList, insertSorted, List.getD]
  refine ⟨?_, by decide, ?_⟩
  · have hfilter :
        (((15 : ℚ) :: []).take 20).filter
          (fun a => decide (-45 < a) && decide (a < 45)) = [15] := by
      norm_num [List.filter]
    simp only [deskew, deskew_opencv, if_true, List.length_cons, List.length_nil]
    rw [if_neg (by omega), hfilter]
    rw [show ([(15 : ℚ)].isEmpty) = false from rfl]
    simp only [Bool.false_eq_true, if_false, hmed]
    rw [if_neg (by norm_num)]
  · rw [hmed]
    norm_num

/-- Claim C5 (amended): deskew rewrites to the corrected output exactly when
the OpenCV backend is present, the image decodes, the Hough transform returns
a nonempty line list, the first 20 lines contain at least one angle strictly
within ±45° of horizontal, the median `m` of those angles satisfies
`0.5 ≤ |m| ≤ 15` (closed bounds — the source skips only for `|m| < 0.5` or
`|m| > 15`), and the final rotate/write block succeeds; in every other case —
including a failure of that final block, caught by `deskew`'s `try/except` —
the result is the input path unchanged. -/
theorem c5_deskew_characterization (use_cv img_ok write_ok : Bool)
    (lines : Option (List ℚ)) (inp outp : String) (hne : inp ≠ outp) :
    (deskew use_cv img_ok write_ok lines inp outp = inp ∨
      deskew use_cv img_ok write_ok lines inp outp = outp) ∧
    (deskew use_cv img_ok write_ok lines inp outp = outp ↔
      (use_cv = true ∧ img_ok = true ∧ write_ok = true ∧ lines ≠ none ∧
        (lines.getD []).length ≠ 0 ∧
        ((lines.getD []).take 20).filter
          (fun a => decide (-45 < a) && decide (a < 45)) ≠ [] ∧
        1/2 ≤ |npMedian (((lines.getD []).take 20).filter
          (fun a => decide (-45 < a) && decide (a < 45)))| ∧
        |npMedian (((lines.getD []).take 20).filter
          (fun a => decide (-45 < a) && decide (a < 45)))| ≤ 15)) := by
  cases use_cv with
  | false =>
    simp only [deskew, Bool.false_eq_true, if_false]
    exact ⟨Or.inl trivial, fun h => absurd h hne, fun h => absurd h.1 (by simp)⟩
  | true =>
    cases img_ok with
    | false =>
      simp only [deskew, deskew_opencv, Bool.false_eq_true, if_false, if_true]
      exact ⟨Or.inl trivial, fun h => absurd h hne, fun h => absurd h.2.1 (by simp)⟩
    | true =>
      cases lines with
      | none =>
        simp only [deskew, deskew_opencv, if_true]
        exact ⟨Or.inl trivial, fun h => absurd h hne,
          fun h => absurd h.2.2.2.1 (by simp)⟩
      | some ls =>
        simp only [deskew, deskew_opencv, if_true, Option.getD_some]
        by_cases hlen : ls.length = 0
        · rw [if_pos hlen]
          exact ⟨Or.inl rfl, fun h => absurd h hne, fun h => absurd hlen h.2.2.2.2.1⟩
        · rw [if_neg hlen]
          by_cases hemp : (ls.take 20).filter
              (fun a => decide (-45 < a) && decide (a < 45)) = []
          · rw [if_pos (List.isEmpty_iff.mpr hemp)]
            exact ⟨Or.inl rfl, fun h => absurd h hne,
              fun h => absurd hemp h.2.2.2.2.2.1⟩
          · rw [if_neg (fun hc => hemp (List.isEmpty_iff.mp hc))]
            by_cases hm : |npMedian ((ls.take 20).filter
                (fun a => decide (-45 < a) && decide (a < 45)))| < 1/2 ∨
                |npMedian ((ls.take 20).filter
                  (fun a => decide (-45 < a) && decide (a < 45)))| > 15
            · rw [if_pos hm]
              refine ⟨Or.inl rfl, fun h => absurd h hne, fun h => ?_⟩
              rcases hm with hm | hm
              · exact absurd h.2.2.2.2.2.2.1 (by linarith)
              · exact absurd h.2.2.2.2.2.2.2 (by linarith)
            · rw [if_neg hm]
              cases write_ok with
              | false =>
                rw [if_neg (by simp)]
                exact ⟨Or.inl rfl, fun h => absurd h hne,
                  fun h => absurd h.2.2.1 (by simp)⟩
              | true =>
                rw [if_pos rfl]
                push_neg at hm
                exact ⟨Or.inr rfl, fun _ =>
                  ⟨trivial, trivial, rfl, by simp, hlen, hemp, hm.1, hm.2⟩,
                  fun _ => rfl⟩

/-- Witness for `c5_deskew_characterization`: a 3° median line list leads to
the corrected output. -/
theorem c5_witness :
    deskew true true true (some [3]) "x.jpg" "y.jpg" = "y.jpg" :=
  ((c5_deskew_characterization true true true (some [3]) "x.jpg" "y.jpg"
      (by decide)).2).mpr
    (by
      have hfilter :
          (((3 : ℚ) :: []).take 20).filter
            (fun a => decide (-45 < a) && decide (a < 45)) = [3] := by
        norm_num [List.filter]
      have hmed : npMedian [3] = 3 := by
        norm_num [npMedian, sortList, insertSorted, List.getD]
      refine ⟨rfl, rfl, rfl, by simp, by simp, ?_, ?_, ?_⟩ <;>
        simp only [Option.getD_some, hfilter, hmed] <;> norm_num)

/-- Witness instantiating `c4_output_size_floor` on the truncation quad:
its width collapses to the 100 floor, so the squared edge is below `101²`. -/
theorem c4_witness :
    (max (dist_sq (0, 0) (100, 11)) (dist_sq (0, 300) (100, 311))).toNat < 101 ^ 2 :=
  (c4_output_size_floor (0, 0) (100, 11) (100, 311) (0, 300)).2.2.2.1 (by
    have s1 : Nat.sqrt 10121 = 100 := sqrt_eq_of (by decide) (by decide)
    have d1 : (max (dist_sq (0, 0) (100, 11)) (dist_sq (0, 300) (100, 311))).toNat = 10121 := by
      decide
    simp only [calculate_output_size]
    rw [d1, s1]
    decide)

/-- Claim C7: the detection entry points are total (they are plain functions
of their oracles and inputs — no exception propagates), and every error path
— entry-level exception, backend-internal exception, unreadable file, or a
byte buffer whose length is neither `w*h*3` nor `w*h*4` — produces
`QuadResult(detected=False)` with confidence exactly zero. -/
theorem c7_detection_error_results (use_cv entry_ok backend_ok : Bool)
    (nbytes w h : Nat) (cv_processed pil_processed : QuadResult) :
    (entry_ok = false →
      detect_from_bytes use_cv entry_ok backend_ok nbytes w h cv_processed pil_processed
        = quadFail ∧
      detect use_cv entry_ok backend_ok cv_processed pil_processed = quadFail) ∧
    (backend_ok = false →
      detect_from_bytes use_cv entry_ok backend_ok nbytes w h cv_processed pil_processed
        = quadFail ∧
      detect use_cv entry_ok backend_ok cv_processed pil_processed = quadFail) ∧
    (use_cv = true → nbytes ≠ w * h * 3 → nbytes ≠ w * h * 4 →
      detect_from_bytes use_cv entry_ok backend_ok nbytes w h cv_processed pil_processed
        = quadFail) ∧
    quadFail.detected = false ∧ quadFail.confidence = 0 := by
  refine ⟨fun he => ?_, fun hb => ?_, fun hcv h3 h4 => ?_, rfl, rfl⟩
  · subst he
    simp [detect_from_bytes, detect]
  · subst hb
    cases entry_ok <;> cases use_cv <;>
      simp [detect_from_bytes, detect, detect_opencv_bytes, detect_pillow_bytes,
        detect_opencv_file, detect_pillow_file]
  · subst hcv
    cases entry_ok <;> cases backend_ok <;>
      simp [detect_from_bytes, detect_opencv_bytes, h3, h4]

/-- Witness for `c7_detection_error_results`: a 7-byte buffer for a 2×2 frame
(neither 12 nor 16 bytes) is rejected as not-detected with zero confidence,
discarding whatever the backend would have produced. -/
theorem c7_witness :
    detect_from_bytes true true true 7 2 2
      { detected := true, points := some [(0, 0)], confidence := 1, frame_size := (2, 2) }
      quadFail = quadFail :=
  (c7_detection_error_results true true true 7 2 2
    { detected := true, points := some [(0, 0)], confidence := 1, frame_size := (2, 2) }
    quadFail).2.2.1 rfl (by decide) (by decide)

/-- Claim C8: a `process_capture_async` call while `_is_processing` is set
returns immediately with the pipeline state (including the in-flight work)
unchanged, spawns no worker, and delivers to the completion callback a
`ProcessingResult` with `success = false` and error message
"Already processing". -/
theorem c8_busy_rejection (st : PipelineState) (job : WorkItem)
    (h : st.is_processing = true) :
    (process_capture_async st job true).state = st ∧
    (process_capture_async st job true).spawned = false ∧
    (process_capture_async st job true).delivered =
      some { success := false, output_path := "",
             error_message := "Already processing", processing_time_ms := 0 } := by
  simp [process_capture_async, h]

/-- Witness for `c8_busy_rejection` on a busy pipeline with a concrete
in-flight job. -/
theorem c8_witness :
    (process_capture_async
      ⟨true, some ⟨"busy.jpg", none, FilterType.ORIGINAL, 0⟩⟩
      ⟨"new.jpg", none, FilterType.GRAYSCALE, 90⟩ true).state =
      ⟨true, some ⟨"busy.jpg", none, FilterType.ORIGINAL, 0⟩⟩ :=
  (c8_busy_rejection ⟨true, some ⟨"busy.jpg", none, FilterType.ORIGINAL, 0⟩⟩
    ⟨"new.jpg", none, FilterType.GRAYSCALE, 90⟩ rfl).1

/-- One-step unfolding of `accepted_times`. -/
theorem accepted_times_cons (last t : ℚ) (ts : List ℚ) :
    accepted_times last (t :: ts) =
      if t - last < 1/5 then accepted_times last ts
      else t :: accepted_times t ts := by
  by_cases h : t - last < 1/5
  · simp only [accepted_times, detect_document_preview, PREVIEW_FRAME_INTERVAL]
    rw [if_pos h, if_pos h]
    rfl
  · simp only [accepted_times, detect_document_preview, PREVIEW_FRAME_INTERVAL]
    rw [if_neg h, if_neg h]
    rfl

/-- Every time accepted from throttle state `last` is at least `last + 1/5`. -/
theorem accepted_times_lb (ts : List ℚ) :
    ∀ last x, x ∈ accepted_times last ts → last + 1/5 ≤ x := by
  induction ts with
  | nil => intro last x hx; simp [accepted_times] at hx
  | cons t ts ih =>
    intro last x hx
    rw [accepted_times_cons] at hx
    by_cases h : t - last < 1/5
    · rw [if_pos h] at hx
      exact ih last x hx
    · rw [if_neg h] at hx
      rcases List.mem_cons.mp hx with rfl | hx
      · linarith
      · have := ih t x hx
        linarith

/-- Claim C9: a preview call arriving less than 0.2 s after the most recent
accepted call is reported not-run (`false`) and leaves the throttle state
unchanged (dropped, not queued); a call is rejected exactly when
`now - last < 0.2`; and along any sequence of calls, the accepted (actually
run) detections are pairwise at least 0.2 s apart. -/
theorem c9_preview_throttling (last t : ℚ) (ts : List ℚ) :
    ((detect_document_preview last t).1 = false ↔ t - last < 1/5) ∧
    (t - last < 1/5 → detect_document_preview last t = (false, last)) ∧
    List.Chain' (fun a b => a + 1/5 ≤ b) (accepted_times last ts) := by
  refine ⟨?_, ?_, ?_⟩
  · simp only [detect_document_preview, PREVIEW_FRAME_INTERVAL]
    by_cases h : t - last < 1/5
    · rw [if_pos h]
      simpa using h
    · rw [if_neg h]
      simpa using h
  · intro h
    simp only [detect_document_preview, PREVIEW_FRAME_INTERVAL]
    rw [if_pos h]
  · induction ts generalizing last with
    | nil => simp [accepted_times]
    | cons u us ih =>
      rw [accepted_times_cons]
      by_cases h : u - last < 1/5
      · rw [if_pos h]
        exact ih last
      · rw [if_neg h]
        refine List.chain'_cons'.mpr ⟨?_, ih u⟩
        intro b hb
        exact accepted_times_lb us u b (List.mem_of_mem_head? hb)

/-- Witness for `c9_preview_throttling`: a call 0.1 s after the last accepted
one is dropped with the throttle state unchanged. -/
theorem c9_witness : detect_document_preview 1 (11/10) = (false, 1) :=
  (c9_preview_throttling 1 (11/10) []).2.1 (by norm_num)

/-- Claim C10: `estimate_brightness` is total, always in `[0, 255]`
(given 8-bit grayscale samples), and returns the fixed default 128 on any
decode/read failure; `is_low_light` (threshold 50, as called by the
pipeline) is `true` exactly when the estimated brightness is below 50, so an
unreadable image reports as not low-light rather than as an error. -/
theorem c10_brightness_bounds (ok : Bool) (sample : List Nat)
    (hb : ∀ p ∈ sample, p ≤ 255) :
    0 ≤ estimate_brightness ok sample ∧ estimate_brightness ok sample ≤ 255 ∧
    (ok = false → estimate_brightness ok sample = 128) ∧
    (pipeline_is_low_light ok sample = true ↔ estimate_brightness ok sample < 50) ∧
    (ok = false → pipeline_is_low_light ok sample = false) := by
  have hmain : 0 ≤ estimate_brightness ok sample ∧ estimate_brightness ok sample ≤ 255 := by
    cases ok with
    | false => norm_num [estimate_brightness]
    | true =>
      by_cases he : sample.isEmpty
      · norm_num [estimate_brightness, he]
      · have hlen : 0 < sample.length := by
          cases sample with
          | nil => simp at he
          | cons a t => simp
        have hsum : (sample.sum : ℚ) ≤ 255 * sample.length := by
          have h := List.sum_le_card_nsmul sample 255 hb
          rw [smul_eq_mul] at h
          calc (sample.sum : ℚ) ≤ ((sample.length * 255 : ℕ) : ℚ) := by
                exact_mod_cast h
            _ = 255 * sample.length := by push_cast; ring
        have hlenq : (0 : ℚ) < sample.length := by exact_mod_cast hlen
        constructor
        · simp only [estimate_brightness, he, if_true, Bool.false_eq_true, if_false]
          positivity
        · simp only [estimate_brightness, he, if_true, Bool.false_eq_true, if_false]
          rw [div_le_iff₀ hlenq]
          linarith
  refine ⟨hmain.1, hmain.2, fun h => by simp [estimate_brightness, h], ?_, fun h => ?_⟩
  · simp [pipeline_is_low_light, is_low_light]
  · simp [pipeline_is_low_light, is_low_light, estimate_brightness, h]
    norm_num

/-- Witness for `c10_brightness_bounds`: a dim two-pixel sample (mean 15) is
reported low-light. -/
theorem c10_witness : pipeline_is_low_light true [10, 20] = true :=
  (c10_brightness_bounds true [10, 20] (by decide)).2.2.2.1.mpr (by
    norm_num [estimate_brightness])

/-- The bbox loop state after folding over any index list equals the
componentwise folds over the above-threshold indices only. -/
theorem bbox_foldl (width : Nat) (pixels : List Nat) (l : List Nat) (s : BboxState) :
    l.foldl (bboxStep width pixels) s =
      { min_x := (l.filter (fun i => decide (128 < pixels.getD i 0))).foldl
          (fun a i => min a (i % width)) s.min_x,
        min_y := (l.filter (fun i => decide (128 < pixels.getD i 0))).foldl
          (fun a i => min a (i / width)) s.min_y,
        max_x := (l.filter (fun i => decide (128 < pixels.getD i 0))).foldl
          (fun a i => max a (i % width)) s.max_x,
        max_y := (l.filter (fun i => decide (128 < pixels.getD i 0))).foldl
          (fun a i => max a (i / width)) s.max_y,
        count := s.count + (l.filter (fun i => decide (128 < pixels.getD i 0))).length } := by
  induction l generalizing s with
  | nil => simp
  | cons i t ih =>
    rw [List.foldl_cons, ih]
    by_cases h : 128 < pixels.getD i 0
    · have hstep : bboxStep width pixels s i =
          { min_x := min s.min_x (i % width), min_y := min s.min_y (i / width),
            max_x := max s.max_x (i % width), max_y := max s.max_y (i / width),
            count := s.count + 1 } := by
        unfold bboxStep
        rw [if_pos h]
      have hfilter : (i :: t).filter (fun j => decide (128 < pixels.getD j 0)) =
          i :: t.filter (fun j => decide (128 < pixels.getD j 0)) := by
        rw [List.filter_cons, if_pos (decide_eq_true h)]
      rw [hstep, hfilter, BboxState.mk.injEq]
      exact ⟨rfl, rfl, rfl, rfl, by simp only [List.length_cons]; omega⟩
    · have hstep : bboxStep width pixels s i = s := by
        unfold bboxStep
        rw [if_neg h]
      have hfilter : (i :: t).filter (fun j => decide (128 < pixels.getD j 0)) =
          t.filter (fun j => decide (128 < pixels.getD j 0)) := by
        rw [List.filter_cons, if_neg (by simp only [decide_eq_true_eq]; exact h)]
      rw [hstep, hfilter]

/-- Pointwise value of the thresholded image (out-of-range reads default to 0
on both sides). -/
theorem threshold_getD (pixels : List Nat) (i : Nat) :
    (threshold_point pixels).getD i 0 = if 30 < pixels.getD i 0 then 255 else 0 := by
  induction pixels generalizing i with
  | nil =>
    simp [threshold_point]
  | cons a t ih =>
    cases i with
    | zero => simp [threshold_point]
    | succ n =>
      simpa [threshold_point] using ih n

/-- A thresholded pixel exceeds 128 exactly when the raw edge pixel exceeds
the binary threshold 30. -/
theorem threshold_exceeds (pixels : List Nat) (i : Nat) :
    128 < (threshold_point pixels).getD i 0 ↔ 30 < pixels.getD i 0 := by
  rw [threshold_getD]
  by_cases h : 30 < pixels.getD i 0
  · rw [if_pos h]
    exact ⟨fun _ => h, fun _ => by norm_num⟩
  · rw [if_neg h]
    exact ⟨fun hc => absurd hc (by omega), fun hc => absurd hc h⟩

/-- `find_content_bbox` in terms of the declarative edge-pixel statistics. -/
theorem find_content_bbox_eq (width height : Nat) (binary : List Nat) :
    find_content_bbox width height binary =
      if (spec_edge_idx width height binary).length < 100 then none
      else if (spec_box_x2 width height binary - spec_box_x1 width height binary) * 5
              < width ∨
            (spec_box_y2 width height binary - spec_box_y1 width height binary) * 5
              < height then none
      else some (spec_box_x1 width height binary, spec_box_y1 width height binary,
        spec_box_x2 width height binary, spec_box_y2 width height binary) := by
  simp only [find_content_bbox, bbox_foldl, spec_edge_idx, spec_min_x, spec_min_y,
    spec_max_x, spec_max_y, spec_box_x1, spec_box_y1, spec_box_x2, spec_box_y2,
    Nat.zero_add]

/-- Claim C6: in the Pillow fallback, detection succeeds exactly when at
least 100 pixels of the thresholded edge image exceed 128 — equivalently,
at least 100 raw edge pixels exceed the binary threshold 30 (last conjunct) —
and the 10px-margin-expanded, frame-clamped bounding box of those pixels
spans at least 20% of the downscaled frame in each dimension; in that case
the quad is the margin-expanded box corners rescaled to original-frame space
with confidence exactly 0.5, and otherwise `detected = false` with zero
confidence and no points. -/
theorem c6_fallback_detection (ow oh : Nat) (edge_pixels : List Nat) :
    ((process_pillow ow oh edge_pixels).detected = true ↔
      (100 ≤ (spec_edge_idx (downscaled_size ow oh).1 (downscaled_size ow oh).2
          (threshold_point edge_pixels)).length ∧
        (downscaled_size ow oh).1 ≤
          (spec_box_x2 (downscaled_size ow oh).1 (downscaled_size ow oh).2
              (threshold_point edge_pixels) -
            spec_box_x1 (downscaled_size ow oh).1 (downscaled_size ow oh).2
              (threshold_point edge_pixels)) * 5 ∧
        (downscaled_size ow oh).2 ≤
          (spec_box_y2 (downscaled_size ow oh).1 (downscaled_size ow oh).2
              (threshold_point edge_pixels) -
            spec_box_y1 (downscaled_size ow oh).1 (downscaled_size ow oh).2
              (threshold_point edge_pixels)) * 5)) ∧
    ((process_pillow ow oh edge_pixels).detected = true →
      (process_pillow ow oh edge_pixels).points = some
        [(↑(unscale ow (spec_box_x1 (downscaled_size ow oh).1 (downscaled_size ow oh).2
              (threshold_point edge_pixels))),
          ↑(unscale ow (spec_box_y1 (downscaled_size ow oh).1 (downscaled_size ow oh).2
              (threshold_point edge_pixels)))),
         (↑(unscale ow (spec_box_x2 (downscaled_size ow oh).1 (downscaled_size ow oh).2
              (threshold_point edge_pixels))),
          ↑(unscale ow (spec_box_y1 (downscaled_size ow oh).1 (downscaled_size ow oh).2
              (threshold_point edge_pixels)))),
         (↑(unscale ow (spec_box_x2 (downscaled_size ow oh).1 (downscaled_size ow oh).2
              (threshold_point edge_pixels))),
          ↑(unscale ow (spec_box_y2 (downscaled_size ow oh).1 (downscaled_size ow oh).2
              (threshold_point edge_pixels)))),
         (↑(unscale ow (spec_box_x1 (downscaled_size ow oh).1 (downscaled_size ow oh).2
              (threshold_point edge_pixels))),
          ↑(unscale ow (spec_box_y2 (downscaled_size ow oh).1 (downscaled_size ow oh).2
              (threshold_point edge_pixels))))] ∧
      (process_pillow ow oh edge_pixels).confidence = 1/2) ∧
    ((process_pillow ow oh edge_pixels).detected = false →
      (process_pillow ow oh edge_pixels).confidence = 0 ∧
      (process_pillow ow oh edge_pixels).points = none) ∧
    (spec_edge_idx (downscaled_size ow oh).1 (downscaled_size ow oh).2
        (threshold_point edge_pixels)).length =
      ((List.range ((downscaled_size ow oh).2 * (downscaled_size ow oh).1)).filter
        (fun i => decide (30 < edge_pixels.getD i 0))).length := by
  have hlen : (spec_edge_idx (downscaled_size ow oh).1 (downscaled_size ow oh).2
      (threshold_point edge_pixels)).length =
      ((List.range ((downscaled_size ow oh).2 * (downscaled_size ow oh).1)).filter
        (fun i => decide (30 < edge_pixels.getD i 0))).length := by
    unfold spec_edge_idx
    congr 1
    apply List.filter_congr
    intro i _
    rw [decide_eq_decide]
    exact threshold_exceeds edge_pixels i
  by_cases h100 : (spec_edge_idx (downscaled_size ow oh).1 (downscaled_size ow oh).2
      (threshold_point edge_pixels)).length < 100
  · have hr : process_pillow ow oh edge_pixels =
        { detected := false, points := none, confidence := 0,
          frame_size := (ow, oh) } := by
      simp only [process_pillow]
      rw [find_content_bbox_eq, if_pos h100]
    rw [hr]
    refine ⟨⟨fun hc => (nomatch hc), fun hc => absurd hc.1 (by omega)⟩,
      fun hc => (nomatch hc), fun _ => ⟨rfl, rfl⟩, hlen⟩
  · by_cases hbox : (spec_box_x2 (downscaled_size ow oh).1 (downscaled_size ow oh).2
          (threshold_point edge_pixels) -
        spec_box_x1 (downscaled_size ow oh).1 (downscaled_size ow oh).2
          (threshold_point edge_pixels)) * 5 < (downscaled_size ow oh).1 ∨
        (spec_box_y2 (downscaled_size ow oh).1 (downscaled_size ow oh).2
            (threshold_point edge_pixels) -
          spec_box_y1 (downscaled_size ow oh).1 (downscaled_size ow oh).2
            (threshold_point edge_pixels)) * 5 < (downscaled_size ow oh).2
    · have hr : process_pillow ow oh edge_pixels =
          { detected := false, points := none, confidence := 0,
            frame_size := (ow, oh) } := by
        simp only [process_pillow]
        rw [find_content_bbox_eq, if_neg h100, if_pos hbox]
      rw [hr]
      refine ⟨⟨fun hc => (nomatch hc), fun hc => ?_⟩,
        fun hc => (nomatch hc), fun _ => ⟨rfl, rfl⟩, hlen⟩
      rcases hbox with hb | hb
      · exact absurd hc.2.1 (by omega)
      · exact absurd hc.2.2 (by omega)
    · push_neg at hbox
      have hr : process_pillow ow oh edge_pixels =
          { detected := true,
            points := some
              [(↑(unscale ow (spec_box_x1 (downscaled_size ow oh).1
                    (downscaled_size ow oh).2 (threshold_point edge_pixels))),
                ↑(unscale ow (spec_box_y1 (downscaled_size ow oh).1
                    (downscaled_size ow oh).2 (threshold_point edge_pixels)))),
               (↑(unscale ow (spec_box_x2 (downscaled_size ow oh).1
                    (downscaled_size ow oh).2 (threshold_point edge_pixels))),
                ↑(unscale ow (spec_box_y1 (downscaled_size ow oh).1
                    (downscaled_size ow oh).2 (threshold_point edge_pixels)))),
               (↑(unscale ow (spec_box_x2 (downscaled_size ow oh).1
                    (downscaled_size ow oh).2 (threshold_point edge_pixels))),
                ↑(unscale ow (spec_box_y2 (downscaled_size ow oh).1
                    (downscaled_size ow oh).2 (threshold_point edge_pixels)))),
               (↑(unscale ow (spec_box_x1 (downscaled_size ow oh).1
                    (downscaled_size ow oh).2 (threshold_point edge_pixels))),
                ↑(unscale ow (spec_box_y2 (downscaled_size ow oh).1
                    (downscaled_size ow oh).2 (threshold_point edge_pixels))))],
            confidence := 1/2, frame_size := (ow, oh) } := by
        simp only [process_pillow]
        rw [find_content_bbox_eq, if_neg h100,
          if_neg (by push_neg; exact hbox : ¬ _)]
      rw [hr]
      exact ⟨⟨fun _ => ⟨by omega, hbox.1, hbox.2⟩, fun _ => rfl⟩,
        fun _ => ⟨rfl, rfl⟩, fun hc => (nomatch hc), hlen⟩

set_option maxRecDepth 4000 in
/-- Witness for `c6_fallback_detection`: a 10×10 frame whose edge image is
entirely above threshold detects with the expected full-frame margin box. -/
theorem c6_witness :
    (process_pillow 10 10 (List.replicate 100 255)).detected = true :=
  (c6_fallback_detection 10 10 (List.replicate 100 255)).1.mpr (by decide)

end PdfScanner
